import Mathlib

/-!
Shallow embedding of `src/main.py`: a FastAPI service exposing four
endpoints over a MongoDB collection `users`.  The collection is modelled
as a list of documents in the store's enumeration order; a document is an
association list from field names to string values.  The PyMongo client
operations used by the code (`count_documents`, `find` with a projection,
`find_one`, `delete_one`, `insert_one`) are embedded as pure functions on
that state, and each endpoint handler is a function from the store state
to the new state and/or its JSON response.
-/

/-- A MongoDB document: field names mapped to values (only string values
occur in this program). -/
abbrev Doc := List (String × String)

/-- The `users` collection: documents in enumeration order. -/
abbrev Store := List Doc

/-- Field lookup in a document, `doc["field"]` returning `none` where
Python would raise `KeyError`. -/
def Doc.get (d : Doc) (k : String) : Option String :=
  match d with
  | [] => none
  | (k', v) :: rest => if k' == k then some v else Doc.get rest k

/-- Whether a document matches an equality filter such as
`{"username": u}` : every filter field is present with the given value. -/
def docMatches (filter : List (String × String)) (d : Doc) : Bool :=
  filter.all (fun kv => Doc.get d kv.1 == some kv.2)

/-- PyMongo `collection.count_documents(filter)`. -/
def count_documents (s : Store) (filter : List (String × String)) : Nat :=
  (s.filter (docMatches filter)).length

/-- PyMongo `collection.find(filter, projection)` where the projection is
an inclusion predicate on field names (the code uses
`{"username": 1, "_id": 0}`, i.e. keep exactly the `username` field). -/
def findDocs (s : Store) (filter : List (String × String))
    (proj : String → Bool) : List Doc :=
  (s.filter (docMatches filter)).map (fun d => d.filter (fun kv => proj kv.1))

/-- PyMongo `collection.find_one(filter)`: the first matching document,
or `none`. -/
def find_one (s : Store) (filter : List (String × String)) : Option Doc :=
  s.find? (docMatches filter)

/-- PyMongo `collection.delete_one(filter)`: removes the first matching
document; the second component is `result.deleted_count`. -/
def delete_one (s : Store) (filter : List (String × String)) : Store × Nat :=
  match s with
  | [] => ([], 0)
  | d :: rest =>
    if docMatches filter d then (rest, 1)
    else
      let r := delete_one rest filter
      (d :: r.1, r.2)

/-- PyMongo `collection.insert_one(doc)`: appends the document. -/
def insert_one (s : Store) (d : Doc) : Store :=
  s ++ [d]

/-- Python truthiness of a dict: `if users.find_one(...)` treats an empty
dict as false. -/
def pyTruthy (d : Doc) : Bool :=
  !d.isEmpty

/-- The JSON body returned by the add/delete endpoints:
`{"state": bool, "message": str}`. -/
structure ApiResult where
  state : Bool
  message : String
deriving DecidableEq, Repr

/-- The list comprehension `[doc["username"] for doc in cursor]`:
`none` models the `KeyError` raised when a document lacks the field. -/
def extractUsernames (docs : List Doc) : Option (List String) :=
  match docs with
  | [] => some []
  | d :: rest =>
    match Doc.get d "username", extractUsernames rest with
    | some u, some l => some (u :: l)
    | _, _ => none

/-- Endpoint `GET /user_count`: `users.count_documents({})`, returned as
`{"total_users": n}`. -/
def get_user_count (s : Store) : Nat :=
  count_documents s []

/-- Endpoint `GET /user_name_list`:
`cursor = users.find({}, {"username": 1, "_id": 0})` followed by
`[doc["username"] for doc in cursor]`, returned as `{"usernames": ...}`. -/
def get_user_name_list (s : Store) : Option (List String) :=
  extractUsernames (findDocs s [] (fun k => k == "username"))

/-- Endpoint `POST /delete-user`:
`result = users.delete_one({"username": user.username})`, then success
response iff `result.deleted_count == 1`. -/
def delete_user (s : Store) (username : String) : Store × ApiResult :=
  let r := delete_one s [("username", username)]
  (r.1,
    if r.2 == 1 then ⟨true, "User " ++ username ++ " deleted."⟩
    else ⟨false, "User " ++ username ++ " not found."⟩)

/-- Endpoint `POST /add-user`:
`if users.find_one({"username": user.username}):` return the
already-exists failure, else `users.insert_one({"username": ...})` and
return success. -/
def add_user (s : Store) (username : String) : Store × ApiResult :=
  match find_one s [("username", username)] with
  | some d =>
    if pyTruthy d then (s, ⟨false, "User " ++ username ++ " already exists."⟩)
    else (insert_one s [("username", username)],
      ⟨true, "User " ++ username ++ " added."⟩)
  | none => (insert_one s [("username", username)],
      ⟨true, "User " ++ username ++ " added."⟩)

/-- The collection holds at most one document per distinct username value
(documents without a `username` field do not count). -/
def distinctUsernames (s : Store) : Bool :=
  match s with
  | [] => true
  | d :: rest =>
    rest.all (fun d2 => (Doc.get d "username").isNone
      || (Doc.get d "username" != Doc.get d2 "username"))
    && distinctUsernames rest

example : get_user_count [[("username", "a")], [("x", "y")]] = 2 := by decide
example : get_user_name_list [[("username", "a"), ("_id", "i")], [("username", "b")]]
    = some ["a", "b"] := by decide
example : get_user_name_list [[("x", "y")]] = none := by decide
example : add_user [] "alice"
    = ([[("username", "alice")]], ⟨true, "User alice added."⟩) := by decide
example : add_user [[("username", "alice")]] "alice"
    = ([[("username", "alice")]], ⟨false, "User alice already exists."⟩) := by decide
example : delete_user [[("username", "alice")]] "alice"
    = ([], ⟨true, "User alice deleted."⟩) := by decide
example : delete_user [] "alice"
    = ([], ⟨false, "User alice not found."⟩) := by decide
example : distinctUsernames [[("username", "a")], [("username", "a")]] = false := by decide

/-! Helper lemmas about the embedded store operations. -/

theorem docMatches_nil (d : Doc) : docMatches [] d = true := rfl

theorem docMatches_username (u : String) (d : Doc) :
    docMatches [("username", u)] d = (Doc.get d "username" == some u) := by
  simp [docMatches, List.all]

theorem filter_docMatches_nil (s : Store) : s.filter (docMatches []) = s :=
  List.filter_eq_self.mpr (fun d _ => docMatches_nil d)

theorem get_filter_key (d : Doc) (k : String) :
    Doc.get (d.filter (fun kv => kv.1 == k)) k = Doc.get d k := by
  induction d with
  | nil => rfl
  | cons kv rest ih =>
    cases kv with
    | mk k' v =>
      by_cases h : k' == k
      · simp [List.filter, h, Doc.get]
      · simp [List.filter, h, Doc.get, ih]

theorem get_user_name_list_nil : get_user_name_list [] = some [] := rfl

theorem get_user_name_list_cons (d : Doc) (s : Store) :
    get_user_name_list (d :: s) =
      match Doc.get d "username", get_user_name_list s with
      | some u, some l => some (u :: l)
      | _, _ => none := by
  show extractUsernames _ = _
  rw [show findDocs (d :: s) [] (fun k => k == "username")
      = (d.filter (fun kv => kv.1 == "username"))
        :: findDocs s [] (fun k => k == "username") by
    simp [findDocs, filter_docMatches_nil, docMatches_nil, List.filter]]
  show (match Doc.get (d.filter (fun kv => kv.1 == "username")) "username",
      extractUsernames (findDocs s [] (fun k => k == "username")) with
    | some u, some l => some (u :: l)
    | _, _ => none) = _
  rw [get_filter_key]
  rfl

theorem get_user_name_list_forall2 (s : Store) (l : List String)
    (h : get_user_name_list s = some l) :
    List.Forall₂ (fun d u => Doc.get d "username" = some u) s l := by
  induction s generalizing l with
  | nil =>
    rw [get_user_name_list_nil] at h
    cases h
    exact List.Forall₂.nil
  | cons d rest ih =>
    rw [get_user_name_list_cons] at h
    cases hu : Doc.get d "username" with
    | none => rw [hu] at h; simp at h
    | some u =>
      cases hr : get_user_name_list rest with
      | none => rw [hu, hr] at h; simp at h
      | some l' =>
        rw [hu, hr] at h
        simp at h
        cases h
        exact List.Forall₂.cons hu (ih l' hr)

theorem get_user_name_list_isSome (s : Store)
    (h : ∀ d ∈ s, (Doc.get d "username").isSome = true) :
    (get_user_name_list s).isSome = true := by
  induction s with
  | nil => rw [get_user_name_list_nil]; rfl
  | cons d rest ih =>
    rw [get_user_name_list_cons]
    cases hu : Doc.get d "username" with
    | none =>
      have := h d (List.mem_cons_self d rest)
      rw [hu] at this
      simp at this
    | some u =>
      cases hr : get_user_name_list rest with
      | none =>
        have := ih (fun d' hd' => h d' (List.mem_cons_of_mem d hd'))
        rw [hr] at this
        simp at this
      | some l' => rfl

theorem forall2_mem_right {R : Doc → String → Prop} {s : Store}
    {l : List String} (h : List.Forall₂ R s l) {u : String} (hu : u ∈ l) :
    ∃ d ∈ s, R d u := by
  induction h with
  | nil => cases hu
  | cons hR _ ih =>
    rcases List.mem_cons.mp hu with rfl | hu'
    · exact ⟨_, List.mem_cons_self _ _, hR⟩
    · obtain ⟨d, hd, hRd⟩ := ih hu'
      exact ⟨d, List.mem_cons_of_mem _ hd, hRd⟩

theorem find_one_username_none (s : Store) (u : String)
    (h : ∀ d ∈ s, Doc.get d "username" ≠ some u) :
    find_one s [("username", u)] = none := by
  apply List.find?_eq_none.mpr
  intro d hd
  rw [docMatches_username]
  simpa using h d hd

theorem find_one_username_some (s : Store) (u : String)
    (h : ∃ d ∈ s, Doc.get d "username" = some u) :
    ∃ d₀, find_one s [("username", u)] = some d₀
      ∧ Doc.get d₀ "username" = some u := by
  obtain ⟨d, hd, hget⟩ := h
  have hsome : (s.find? (docMatches [("username", u)])).isSome = true := by
    apply List.find?_isSome.mpr
    exact ⟨d, hd, by rw [docMatches_username]; simpa using hget⟩
  obtain ⟨d₀, hd₀⟩ := Option.isSome_iff_exists.mp hsome
  refine ⟨d₀, hd₀, ?_⟩
  have := List.find?_some hd₀
  rw [docMatches_username] at this
  simpa using this

theorem get_some_nonempty (d : Doc) (k v : String)
    (h : Doc.get d k = some v) : pyTruthy d = true := by
  cases d with
  | nil => simp [Doc.get] at h
  | cons kv rest => rfl

theorem delete_one_length (s : Store) (f : List (String × String)) :
    (delete_one s f).1.length + (delete_one s f).2 = s.length := by
  induction s with
  | nil => rfl
  | cons d rest ih =>
    by_cases h : docMatches f d
    · simp [delete_one, h]
    · simp [delete_one, h]
      omega

theorem delete_one_count_le (s : Store) (f : List (String × String)) :
    (delete_one s f).2 ≤ 1 := by
  induction s with
  | nil => exact Nat.zero_le 1
  | cons d rest ih =>
    by_cases h : docMatches f d
    · simp [delete_one, h]
    · simpa [delete_one, h] using ih

theorem delete_one_deleted_iff (s : Store) (f : List (String × String)) :
    (delete_one s f).2 = 1 ↔ ∃ d ∈ s, docMatches f d = true := by
  induction s with
  | nil => simp [delete_one]
  | cons d rest ih =>
    by_cases h : docMatches f d
    · simp [delete_one, h]
    · simp [delete_one, h, ih]

theorem delete_one_sublist (s : Store) (f : List (String × String)) :
    List.Sublist (delete_one s f).1 s := by
  induction s with
  | nil => exact List.Sublist.refl []
  | cons d rest ih =>
    by_cases h : docMatches f d
    · simp [delete_one, h]
    · simp [delete_one, h]
      exact ih

theorem delete_one_countP (s : Store) (f : List (String × String)) :
    (delete_one s f).1.countP (docMatches f) + (delete_one s f).2
      = s.countP (docMatches f) := by
  induction s with
  | nil => rfl
  | cons d rest ih =>
    by_cases h : docMatches f d
    · simp [delete_one, h, List.countP_cons]
    · simp [delete_one, h, List.countP_cons]
      omega

theorem all_of_sublist {p : Doc → Bool} {l1 l2 : List Doc}
    (h : List.Sublist l1 l2) (ha : l2.all p = true) : l1.all p = true := by
  rw [List.all_eq_true] at ha ⊢
  exact fun d hd => ha d (h.subset hd)

theorem distinctUsernames_cons (d : Doc) (rest : Store) :
    distinctUsernames (d :: rest)
      = (rest.all (fun d2 => (Doc.get d "username").isNone
          || (Doc.get d "username" != Doc.get d2 "username"))
        && distinctUsernames rest) := rfl

theorem distinct_of_sublist {s' s : Store} (h : List.Sublist s' s)
    (hd : distinctUsernames s = true) : distinctUsernames s' = true := by
  induction h with
  | slnil => rfl
  | cons d _ ih =>
    rw [distinctUsernames_cons, Bool.and_eq_true] at hd
    exact ih hd.2
  | cons₂ d hsub ih =>
    rw [distinctUsernames_cons, Bool.and_eq_true] at hd ⊢
    exact ⟨all_of_sublist hsub hd.1, ih hd.2⟩

theorem username_cond_of_ne (o : Option String) (u : String) (h : o ≠ some u) :
    (o.isNone || (o != some u)) = true := by
  cases o with
  | none => rfl
  | some v =>
    rw [show (some v).isNone = false from rfl, Bool.false_or, bne_iff_ne]
    exact h

theorem distinct_append_single (s : Store) (nd : Doc)
    (h : distinctUsernames s = true)
    (hcond : ∀ d ∈ s, ((Doc.get d "username").isNone
      || (Doc.get d "username" != Doc.get nd "username")) = true) :
    distinctUsernames (s ++ [nd]) = true := by
  induction s with
  | nil => rfl
  | cons d rest ih =>
    rw [distinctUsernames_cons, Bool.and_eq_true] at h
    rw [List.cons_append, distinctUsernames_cons,
      Bool.and_eq_true, List.all_append]
    refine ⟨?_, ih h.2 (fun d' hd' => hcond d' (List.mem_cons_of_mem d hd'))⟩
    rw [Bool.and_eq_true]
    refine ⟨h.1, ?_⟩
    rw [List.all_cons, Bool.and_eq_true]
    exact ⟨hcond d (List.mem_cons_self d rest), rfl⟩

theorem get_user_count_eq_length (s : Store) : get_user_count s = s.length := by
  rw [get_user_count, count_documents, filter_docMatches_nil]

/-- Claim C1: for every store state and username U such that a record with
username U already exists in the collection, add_user(U) returns the
failure result with message "User U already exists." and leaves the store
unchanged. -/
theorem add_user_existing_rejects_and_preserves_store (s : Store) (u : String)
    (h : ∃ d ∈ s, Doc.get d "username" = some u) :
    add_user s u = (s, ⟨false, "User " ++ u ++ " already exists."⟩) := by
  obtain ⟨d₀, hfind, hget⟩ := find_one_username_some s u h
  have ht := get_some_nonempty d₀ "username" u hget
  simp [add_user, hfind, ht]

/-- Witness for C1: adding "bob" to a store already holding "bob". -/
theorem add_user_existing_witness :
    add_user [[("username", "bob")]] "bob"
      = ([[("username", "bob")]], ⟨false, "User bob already exists."⟩) :=
  add_user_existing_rejects_and_preserves_store [[("username", "bob")]] "bob"
    ⟨[("username", "bob")], by decide, by decide⟩

/-- Claim C2: for every store state and username U with no record carrying
username U, add_user(U) appends exactly one new record containing only the
username attribute with value U and returns the success result with
message "User U added.". -/
theorem add_user_absent_inserts_single_record (s : Store) (u : String)
    (h : ∀ d ∈ s, Doc.get d "username" ≠ some u) :
    add_user s u
      = (s ++ [[("username", u)]], ⟨true, "User " ++ u ++ " added."⟩) := by
  simp [add_user, find_one_username_none s u h, insert_one]

/-- Witness for C2: adding "alice" to a store holding only "bob". -/
theorem add_user_absent_witness :
    add_user [[("username", "bob")]] "alice"
      = ([[("username", "bob")]] ++ [[("username", "alice")]],
        ⟨true, "User alice added."⟩) :=
  add_user_absent_inserts_single_record [[("username", "bob")]] "alice"
    (by decide)

/-- Claim C5: count_users returns the total number of records currently in
the collection. -/
theorem user_count_returns_total_records (s : Store) :
    get_user_count s = s.length :=
  get_user_count_eq_length s

/-- Claim C3: delete_user(U) deletes at most one record, returns the
success result with message "User U deleted." iff exactly one record was
removed, and otherwise returns the failure result with message
"User U not found.". -/
theorem delete_user_at_most_one_and_result_iff (s : Store) (u : String) :
    ((delete_user s u).1.length = s.length
      ∨ (delete_user s u).1.length + 1 = s.length)
    ∧ ((delete_user s u).2 = ⟨true, "User " ++ u ++ " deleted."⟩
        ↔ (delete_user s u).1.length + 1 = s.length)
    ∧ ((delete_user s u).2 = ⟨false, "User " ++ u ++ " not found."⟩
        ↔ (delete_user s u).1.length = s.length) := by
  have hlen := delete_one_length s [("username", u)]
  have hle := delete_one_count_le s [("username", u)]
  have hfst : (delete_user s u).1 = (delete_one s [("username", u)]).1 := rfl
  have hsnd : (delete_user s u).2
      = if ((delete_one s [("username", u)]).2 == 1) = true
        then (⟨true, "User " ++ u ++ " deleted."⟩ : ApiResult)
        else ⟨false, "User " ++ u ++ " not found."⟩ := rfl
  rw [hfst, hsnd]
  rcases Nat.le_one_iff_eq_zero_or_eq_one.mp hle with h | h
  · rw [h] at hlen
    rw [h, if_neg (by decide)]
    rw [Nat.add_zero] at hlen
    refine ⟨Or.inl hlen, ?_, ?_⟩
    · constructor
      · intro hEq
        exact absurd hEq (by simp)
      · intro hn
        omega
    · exact ⟨fun _ => hlen, fun _ => rfl⟩
  · rw [h] at hlen
    rw [h, if_pos (by decide)]
    refine ⟨Or.inr hlen, ?_, ?_⟩
    · exact ⟨fun _ => hlen, fun _ => rfl⟩
    · constructor
      · intro hEq
        exact absurd hEq (by simp)
      · intro hn
        omega

/-- Counterexample for C4: in a store holding two records with username
"a", the username "a" is present, delete_user "a" succeeds, yet "a" still
appears in the username list afterwards, contradicting the claim's "U is
absent from list_usernames() afterwards" over every store state. -/
theorem delete_user_duplicate_counterexample :
    (∃ d ∈ ([[("username", "a")], [("username", "a")]] : Store),
      Doc.get d "username" = some "a")
    ∧ (delete_user [[("username", "a")], [("username", "a")]] "a").2
        = ⟨true, "User a deleted."⟩
    ∧ get_user_name_list
        (delete_user [[("username", "a")], [("username", "a")]] "a").1
      = some ["a"]
    ∧ "a" ∈ ["a"] := by
  refine ⟨⟨[("username", "a")], ?_, ?_⟩, ?_, ?_, ?_⟩
  · decide
  · decide
  · decide
  · decide
  · decide

/-- Claim C4 (amended): for every store state in which exactly one record
has username U — as the invariant guarantees; with duplicate records for U
the original claim fails, see the counterexample — delete_user(U) returns
success, the user count decreases by exactly one, and U is absent from any
username list returned afterwards. -/
theorem delete_user_unique_present_removes (s : Store) (u : String)
    (h : s.countP (fun d => Doc.get d "username" == some u) = 1) :
    (delete_user s u).2 = ⟨true, "User " ++ u ++ " deleted."⟩
    ∧ get_user_count s = get_user_count (delete_user s u).1 + 1
    ∧ ∀ l, get_user_name_list (delete_user s u).1 = some l → u ∉ l := by
  have hp : (docMatches [("username", u)])
      = (fun d => Doc.get d "username" == some u) :=
    funext (docMatches_username u)
  have hcount : s.countP (docMatches [("username", u)]) = 1 := by
    rw [hp]; exact h
  have hex : ∃ d ∈ s, docMatches [("username", u)] d = true := by
    apply List.countP_pos_iff.mp
    omega
  have hdel : (delete_one s [("username", u)]).2 = 1 :=
    (delete_one_deleted_iff s [("username", u)]).mpr hex
  have hfst : (delete_user s u).1 = (delete_one s [("username", u)]).1 := rfl
  have hsnd : (delete_user s u).2
      = if ((delete_one s [("username", u)]).2 == 1) = true
        then (⟨true, "User " ++ u ++ " deleted."⟩ : ApiResult)
        else ⟨false, "User " ++ u ++ " not found."⟩ := rfl
  have hlen := delete_one_length s [("username", u)]
  rw [hdel] at hlen
  have hcp := delete_one_countP s [("username", u)]
  rw [hdel, hcount] at hcp
  have hzero : (delete_one s [("username", u)]).1.countP
      (docMatches [("username", u)]) = 0 := by omega
  have habsent : ∀ d ∈ (delete_one s [("username", u)]).1,
      Doc.get d "username" ≠ some u := by
    intro d hd
    have := List.countP_eq_zero.mp hzero d hd
    rw [docMatches_username] at this
    simpa using this
  refine ⟨?_, ?_, ?_⟩
  · rw [hsnd, hdel, if_pos (by decide)]
  · rw [get_user_count_eq_length, get_user_count_eq_length, hfst]
    omega
  · intro l hl hu
    rw [hfst] at hl
    obtain ⟨d, hd, hget⟩ :=
      forall2_mem_right (get_user_name_list_forall2 _ l hl) hu
    exact habsent d hd hget

/-- Witness for C4 (amended): deleting "a" from the two-user store holding
"a" and "b". -/
theorem delete_user_unique_present_witness :
    (delete_user [[("username", "a")], [("username", "b")]] "a").2
        = ⟨true, "User a deleted."⟩
    ∧ get_user_count [[("username", "a")], [("username", "b")]]
        = get_user_count
            (delete_user [[("username", "a")], [("username", "b")]] "a").1 + 1
    ∧ ∀ l, get_user_name_list
          (delete_user [[("username", "a")], [("username", "b")]] "a").1
        = some l → "a" ∉ l :=
  delete_user_unique_present_removes [[("username", "a")], [("username", "b")]]
    "a" (by decide)

/-- Claim C6: whenever list_usernames returns a sequence, that sequence
pairs the records of the store one-to-one and in enumeration order with
their username attribute values — every record contributes exactly its
username and nothing else (the projection drops every other attribute,
including the record id). -/
theorem user_name_list_in_order (s : Store) (l : List String)
    (h : get_user_name_list s = some l) :
    List.Forall₂ (fun d u => Doc.get d "username" = some u) s l :=
  get_user_name_list_forall2 s l h

/-- Witness for C6: a store whose first record also carries an id field. -/
theorem user_name_list_in_order_witness :
    List.Forall₂ (fun d u => Doc.get d "username" = some u)
      [[("username", "a"), ("_id", "i")], [("username", "b")]] ["a", "b"] :=
  user_name_list_in_order [[("username", "a"), ("_id", "i")], [("username", "b")]]
    ["a", "b"] (by decide)

/-- Claim C7: the integer returned by count_users equals the length of
the sequence returned by list_usernames on the same store state. -/
theorem user_count_matches_name_list_length (s : Store) (l : List String)
    (h : get_user_name_list s = some l) : get_user_count s = l.length := by
  rw [get_user_count_eq_length]
  exact (get_user_name_list_forall2 s l h).length_eq

/-- Witness for C7: a two-record store. -/
theorem user_count_matches_name_list_length_witness :
    get_user_count [[("username", "a")], [("username", "b")]]
      = (["a", "b"] : List String).length :=
  user_count_matches_name_list_length [[("username", "a")], [("username", "b")]]
    ["a", "b"] (by decide)

/-- Claim C10: the username-list endpoint is total exactly on stores whose
records all carry a username attribute: on such stores it returns a
sequence, while on a store holding a record without a username field the
lookup doc["username"] fails (modelled as none) instead of skipping the
record. -/
theorem user_name_list_totality :
    (∀ s : Store, (∀ d ∈ s, (Doc.get d "username").isSome = true)
      → (get_user_name_list s).isSome = true)
    ∧ get_user_name_list [[("nickname", "x")]] = none := by
  constructor
  · exact fun s h => get_user_name_list_isSome s h
  · decide

/-- Claim C8: the at-most-one-record-per-username invariant is preserved
by every operation: add_user and delete_user map stores satisfying it to
stores satisfying it, and get_user_count and get_user_name_list read the
store without producing a new state, so the state after any single
sequential call still satisfies the invariant. -/
theorem endpoints_preserve_distinct_usernames (s : Store) (u : String)
    (h : distinctUsernames s = true) :
    distinctUsernames (add_user s u).1 = true
    ∧ distinctUsernames (delete_user s u).1 = true := by
  constructor
  · cases hf : find_one s [("username", u)] with
    | some d0 =>
      have hmatch := List.find?_some hf
      rw [docMatches_username] at hmatch
      have hget : Doc.get d0 "username" = some u := by simpa using hmatch
      have ht : pyTruthy d0 = true := get_some_nonempty d0 "username" u hget
      have hstore : (add_user s u).1 = s := by simp [add_user, hf, ht]
      rw [hstore]
      exact h
    | none =>
      have habs : ∀ d ∈ s, Doc.get d "username" ≠ some u := by
        intro d hd
        have := List.find?_eq_none.mp hf d hd
        rw [docMatches_username] at this
        simpa using this
      have hstore : (add_user s u).1 = s ++ [[("username", u)]] := by
        simp [add_user, hf, insert_one]
      rw [hstore]
      apply distinct_append_single s [("username", u)] h
      intro d hd
      rw [show Doc.get [("username", u)] "username" = some u
        from by simp [Doc.get]]
      exact username_cond_of_ne (Doc.get d "username") u (habs d hd)
  · exact distinct_of_sublist (delete_one_sublist s [("username", u)]) h

/-- Witness for C8: a distinct two-user store with add of a fresh name and
delete of an existing one. -/
theorem endpoints_preserve_distinct_usernames_witness :
    distinctUsernames
        (add_user [[("username", "a")], [("username", "b")]] "c").1 = true
    ∧ distinctUsernames
        (delete_user [[("username", "a")], [("username", "b")]] "c").1 = true :=
  endpoints_preserve_distinct_usernames [[("username", "a")], [("username", "b")]]
    "c" (by decide)

/-- Counterexample for C9: the add-user endpoint accepts the empty string
as a username (the request model only requires a string) and stores a
record whose username is empty, starting from the empty store whose
records trivially all have non-empty usernames. -/
theorem add_user_empty_username_counterexample :
    (∀ d ∈ ([] : Store), ∀ v, Doc.get d "username" = some v → v ≠ "")
    ∧ ∃ d ∈ (add_user ([] : Store) "").1, Doc.get d "username" = some "" := by
  refine ⟨?_, ⟨[("username", "")], ?_, ?_⟩⟩
  · intro d hd
    cases hd
  · decide
  · decide

/-- Claim C9 (amended): add_user stores exactly the username it was given,
so for every store whose records all have non-empty usernames and every
NON-EMPTY username input, the state after add_user still contains only
records with non-empty usernames; the restriction to non-empty inputs is
forced because the endpoint accepts and stores the empty string, see the
counterexample. -/
theorem add_user_preserves_nonempty_usernames (s : Store) (u : String)
    (hs : ∀ d ∈ s, ∀ v, Doc.get d "username" = some v → v ≠ "")
    (hu : u ≠ "") :
    ∀ d ∈ (add_user s u).1, ∀ v, Doc.get d "username" = some v → v ≠ "" := by
  have hins : ∀ d ∈ s ++ [[("username", u)]],
      ∀ v, Doc.get d "username" = some v → v ≠ "" := by
    intro d hd
    rcases List.mem_append.mp hd with h1 | h2
    · exact hs d h1
    · rw [List.mem_singleton.mp h2]
      intro v hv
      rw [show Doc.get [("username", u)] "username" = some u
        from by simp [Doc.get]] at hv
      cases hv
      exact hu
  cases hf : find_one s [("username", u)] with
  | some d0 =>
    by_cases ht : pyTruthy d0 = true
    · have hstore : (add_user s u).1 = s := by simp [add_user, hf, ht]
      rw [hstore]
      exact hs
    · have hstore : (add_user s u).1 = s ++ [[("username", u)]] := by
        simp [add_user, hf, ht, insert_one]
      rw [hstore]
      exact hins
  | none =>
    have hstore : (add_user s u).1 = s ++ [[("username", u)]] := by
      simp [add_user, hf, insert_one]
    rw [hstore]
    exact hins

/-- Witness for C9 (amended): adding "alice" to a store holding "bob",
instantiated at the newly inserted record. -/
theorem add_user_preserves_nonempty_usernames_witness :
    ("alice" : String) ≠ "" :=
  add_user_preserves_nonempty_usernames [[("username", "bob")]] "alice"
    (by decide) (by decide)
    [("username", "alice")] (by decide) "alice" (by decide)
